import Mathlib

/-
Verification of the Von Neumann simulator core (JuanJoM14/VonNeumannSJ).

Shallow embedding of the two files that carry the logic:
  * src/src/cpu.js                — clamp, parseInstr, parseData, step
  * src/src/VonNeumannSimulator.jsx — its own parseInstr (adds MUL/DIV),
    writeMem, doExecute, compileAndLoad, resetCPU

Modelling conventions:
  * JS numbers are modelled as Int.  Every numeric value this core
    manipulates is produced by integer literals, integer arithmetic, or
    Number(...) on operand tokens; Number(...) is modelled by jsNumber,
    which accepts optional-sign decimal integer literals and returns none
    (treated as the not-finite case, hence 0) on anything else.  Fractional,
    hex or exponent literals are outside the model.
  * A memory cell or IR value is Cell: a string, a number, or the JS
    undefined value (out-of-range read, or a hole left by an out-of-range
    array write).
  * A JS array write m[i] = v at i ≥ length extends the array with holes;
    at negative i it creates a non-index property, which is invisible to
    every in-range read, to .length, to .slice and to rendering.  memWrite
    models a negative-index write as leaving the cell list unchanged (the
    only observable divergence, a read-back at the same negative index
    before the next slice, is exercised by no claim).
-/

/-- One JS memory-cell / IR value: an instruction or data string, a number
(a data word), or the undefined value. -/
inductive Cell where
  | str (s : String)
  | num (n : Int)
  | undefined
deriving DecidableEq, Repr

/-- clamp(v, min, max) = Math.max(min, Math.min(max, v)) from src/src/cpu.js
(the jsx defines the identical helper). -/
def clampInt (v lo hi : Int) : Int := max lo (min v hi)

/-
String primitives.  The JS code uses trim, toUpperCase, split and regex
replacement; they are modelled here by structural recursion over the
character list (Char.isWhitespace covers the whitespace characters this
program can meet, Char.toUpper the ASCII mnemonics).
-/

/-- s.trim(): drop whitespace from both ends. -/
def jsTrim (s : String) : String :=
  String.mk
    (((s.data.dropWhile Char.isWhitespace).reverse.dropWhile Char.isWhitespace).reverse)

/-- s.toUpperCase() on the ASCII text this program handles. -/
def jsUpper (s : String) : String :=
  String.mk (s.data.map Char.toUpper)

/-- Split a character list at every separator character (JS
String.split with a one-character separator: empty pieces are kept, the
result is never empty). -/
def splitP (p : Char → Bool) : List Char → List (List Char)
  | [] => [[]]
  | c :: rest =>
    if p c then [] :: splitP p rest
    else
      match splitP p rest with
      | [] => [[c]]
      | h :: t => (c :: h) :: t

/-- line.split("//")[0]: the prefix of the line before the first "//". -/
def beforeComment : List Char → List Char
  | [] => []
  | '/' :: '/' :: _ => []
  | c :: rest => c :: beforeComment rest

/-- Digits of a decimal literal, none when the list is empty or holds a
non-digit character. -/
def decDigits (l : List Char) : Option Nat :=
  if l = [] then none
  else if l.all Char.isDigit then
    some (l.foldl (fun acc c => 10 * acc + (c.toNat - 48)) 0)
  else none

/-- Model of JS Number(s) restricted to optional-sign decimal integer
literals; none stands for NaN (and for the non-integer values outside the
model).  Every caller coerces none to 0 via Number.isFinite guards, and
Number("") = 0 in JS agrees with the 0 those guards produce for none. -/
def jsNumber (s : String) : Option Int :=
  let t := jsTrim s
  match t.data with
  | '-' :: rest => (decDigits rest).map (fun n => -(n : Int))
  | '+' :: rest => (decDigits rest).map (fun n => (n : Int))
  | l           => (decDigits l).map (fun n => (n : Int))

/-- txt.replace(/\s+/g, " ").split(" ") for trimmed txt: the list of
maximal whitespace-free tokens. -/
def tokens (s : String) : List String :=
  ((splitP Char.isWhitespace s.data).filter (fun l => l ≠ [])).map String.mk

/-- The decoded instruction {op, args}.  The constructors are exactly the
values parseInstr can return; mul/div are produced only by the decoder in
VonNeumannSimulator.jsx, never by the one in cpu.js. -/
inductive Instr where
  | nop
  | hlt
  | out
  | data (n : Int)
  | load (a : Int)
  | add (a : Int)
  | sub (a : Int)
  | loadi (a : Int)
  | addm (a : Int)
  | subm (a : Int)
  | store (a : Int)
  | jmp (a : Int)
  | jz (a : Int)
  | jnz (a : Int)
  | mul (a : Int)
  | div (a : Int)
  | invalid (txt : String)
deriving DecidableEq, Repr

/-- The switch on the uppercased mnemonic in cpu.js parseInstr; a is the
already-defaulted numeric operand, txt the whole trimmed text (kept by the
INVALID branch). -/
def instrOfOp (op : String) (a : Int) (txt : String) : Instr :=
  match op with
  | "HLT" => .hlt
  | "NOP" => .nop
  | "OUT" => .out
  | "LOAD" => .load a
  | "ADD" => .add a
  | "SUB" => .sub a
  | "LOADI" => .loadi a
  | "ADDM" => .addm a
  | "SUBM" => .subm a
  | "STORE" => .store a
  | "JMP" => .jmp a
  | "JZ" => .jz a
  | "JNZ" => .jnz a
  | _ => .invalid txt

/-- parseInstr from src/src/cpu.js: null → NOP, number → DATA, text split
into mnemonic and optional operand (Number.isFinite(num) ? num : 0). -/
def parseInstr (raw : Cell) : Instr :=
  match raw with
  | .undefined => .nop
  | .num n => .data n
  | .str s =>
    let txt := jsTrim s
    if txt = "" then .nop
    else
      let parts := tokens txt
      let op := jsUpper (parts.headD "")
      let a : Int := ((parts[1]?).bind jsNumber).getD 0
      instrOfOp op a txt

/-- parseData from src/src/cpu.js: a number as-is, a string through
Number(cell.trim()) defaulting to 0, anything else 0. -/
def parseData (cell : Cell) : Int :=
  match cell with
  | .num n => n
  | .str s => (jsNumber s).getD 0
  | .undefined => 0

/-- The phase strings the simulator assigns. -/
inductive Phase where
  | Idle
  | Fetch
  | Decode
  | Execute
deriving DecidableEq, Repr

/-- The machine state handled by step in src/src/cpu.js. -/
structure State where
  memory : List Cell
  pc : Int
  ir : Cell
  acc : Int
  phase : Phase
  halted : Bool
  outputs : List Int
deriving DecidableEq, Repr

/-- memory[i] in JS: the element when 0 ≤ i < length, undefined otherwise
(including the holes memWrite can leave, which are stored as the undefined cell). -/
def memRead (m : List Cell) (i : Int) : Cell :=
  if 0 ≤ i ∧ i < (m.length : Int) then m.getD i.toNat .undefined else .undefined

/-- m[i] = v on a JS array: in range it replaces the element, past the end
it extends the array with holes; a negative index creates a non-index
property, modelled as no change to the cells (see the header comment). -/
def memWrite (m : List Cell) (i : Int) (v : Cell) : List Cell :=
  if i < 0 then m
  else if i.toNat < m.length then m.set i.toNat v
  else m ++ List.replicate (i.toNat - m.length) .undefined ++ [v]

/-- String(cell) for the template literals in the descriptions. -/
def cellShow (c : Cell) : String :=
  match c with
  | .str s => s
  | .num n => toString n
  | .undefined => "undefined"

/-- instr || "NOP" in the FETCH description: falsy (undefined, "", 0)
becomes "NOP". -/
def cellOrNOP (c : Cell) : String :=
  match c with
  | .str s => if s = "" then "NOP" else s
  | .num n => if n = 0 then "NOP" else toString n
  | .undefined => "NOP"

/-- p.op for the DECODE description. -/
def instrOpName : Instr → String
  | .nop => "NOP"
  | .hlt => "HLT"
  | .out => "OUT"
  | .data _ => "DATA"
  | .load _ => "LOAD"
  | .add _ => "ADD"
  | .sub _ => "SUB"
  | .loadi _ => "LOADI"
  | .addm _ => "ADDM"
  | .subm _ => "SUBM"
  | .store _ => "STORE"
  | .jmp _ => "JMP"
  | .jz _ => "JZ"
  | .jnz _ => "JNZ"
  | .mul _ => "MUL"
  | .div _ => "DIV"
  | .invalid _ => "INVALID"

/-- The p.args[0] suffix of the DECODE description: empty when args is
empty, otherwise a space and the argument. -/
def instrArgText : Instr → String
  | .nop | .hlt | .out => ""
  | .data n => " " ++ toString n
  | .load a | .add a | .sub a | .loadi a | .addm a | .subm a
  | .store a | .jmp a | .jz a | .jnz a | .mul a | .div a => " " ++ toString a
  | .invalid txt => " " ++ txt

/-- nextPC() in step: Math.max(0, Math.min(pc + 1, memory.length - 1)). -/
def nextPCOf (s : State) : Int :=
  max 0 (min (s.pc + 1) ((s.memory.length : Int) - 1))

/-- step from src/src/cpu.js: returns {state, lastAction}. -/
def step (s : State) : State × String :=
  if s.halted then (s, "CPU detenida")
  else
    match s.phase with
    | .Idle | .Execute =>
      let instr := memRead s.memory s.pc
      let newIR := if instr = Cell.undefined then Cell.str "NOP" else instr
      ({ s with phase := .Fetch, ir := newIR },
        "FETCH @" ++ toString s.pc ++ ": " ++ cellOrNOP instr)
    | .Fetch =>
      let p := parseInstr s.ir
      ({ s with phase := .Decode }, "DECODE: " ++ instrOpName p ++ instrArgText p)
    | .Decode =>
      match parseInstr s.ir with
      | .nop =>
        ({ s with phase := .Execute, pc := nextPCOf s }, "EXEC: NOP")
      | .hlt =>
        ({ s with phase := .Execute, halted := true }, "EXEC: HLT (CPU detenida)")
      | .load a =>
        ({ s with phase := .Execute, acc := a, pc := nextPCOf s },
          "EXEC: LOAD #" ++ toString a ++ " → ACC=" ++ toString a)
      | .loadi a =>
        let v := parseData (memRead s.memory a)
        ({ s with phase := .Execute, acc := v, pc := nextPCOf s },
          "EXEC: LOADI [" ++ toString a ++ "] → ACC=" ++ toString v)
      | .store a =>
        let m := memWrite s.memory a (Cell.num s.acc)
        ({ s with phase := .Execute, memory := m, pc := nextPCOf s },
          "EXEC: STORE ACC(" ++ toString s.acc ++ ") → [" ++ toString a ++ "]")
      | .add a =>
        let v := s.acc + a
        ({ s with phase := .Execute, acc := v, pc := nextPCOf s },
          "EXEC: ADD #" ++ toString a ++ " → ACC=" ++ toString v)
      | .addm a =>
        let d := parseData (memRead s.memory a)
        let v := s.acc + d
        ({ s with phase := .Execute, acc := v, pc := nextPCOf s },
          "EXEC: ADDM [" ++ toString a ++ "]=" ++ toString d ++ " → ACC=" ++ toString v)
      | .sub a =>
        let v := s.acc - a
        ({ s with phase := .Execute, acc := v, pc := nextPCOf s },
          "EXEC: SUB #" ++ toString a ++ " → ACC=" ++ toString v)
      | .subm a =>
        let d := parseData (memRead s.memory a)
        let v := s.acc - d
        ({ s with phase := .Execute, acc := v, pc := nextPCOf s },
          "EXEC: SUBM [" ++ toString a ++ "]=" ++ toString d ++ " → ACC=" ++ toString v)
      | .jmp a =>
        ({ s with phase := .Execute, pc := max 0 (min a ((s.memory.length : Int) - 1)) },
          "EXEC: JMP → PC=" ++ toString a)
      | .jz a =>
        if s.acc = 0 then
          ({ s with phase := .Execute, pc := max 0 (min a ((s.memory.length : Int) - 1)) },
            "EXEC: JZ (ACC=0) → PC=" ++ toString a)
        else
          ({ s with phase := .Execute, pc := nextPCOf s }, "EXEC: JZ (no salta)")
      | .jnz a =>
        if s.acc ≠ 0 then
          ({ s with phase := .Execute, pc := max 0 (min a ((s.memory.length : Int) - 1)) },
            "EXEC: JNZ (ACC!=0) → PC=" ++ toString a)
        else
          ({ s with phase := .Execute, pc := nextPCOf s }, "EXEC: JNZ (no salta)")
      | .out =>
        let outs := (s.outputs ++ [s.acc]).drop ((s.outputs.length + 1) - 50)
        ({ s with phase := .Execute, outputs := outs, pc := nextPCOf s },
          "EXEC: OUT → " ++ toString s.acc)
      | .data _ =>
        ({ s with phase := .Execute, pc := nextPCOf s }, "EXEC: DATA (sin efecto)")
      | .invalid _ =>
        ({ s with phase := .Execute, halted := true }, "ERROR: instrucción inválida")
      | .mul _ =>
        ({ s with phase := .Execute, halted := true }, "ERROR: op desconocida MUL")
      | .div _ =>
        ({ s with phase := .Execute, halted := true }, "ERROR: op desconocida DIV")

/-- The state component of step (the driver keeps only this). -/
def stepState (s : State) : State := (step s).1

/-- resetCPU in VonNeumannSimulator.jsx: PC=0, IR="NOP", ACC=0, phase Idle,
halted false, outputs empty, over a given memory. -/
def resetState (mem : List Cell) : State :=
  { memory := mem, pc := 0, ir := Cell.str "NOP", acc := 0,
    phase := .Idle, halted := false, outputs := [] }

/-- Driver loop: apply step until halted, with fuel. -/
def run : Nat → State → State
  | 0, s => s
  | n + 1, s => if s.halted then s else run n (stepState s)

namespace Sim

/-
Embedding of src/src/VonNeumannSimulator.jsx.  The component mirrors its
React state into refs so the timer loop sees fresh values; the effects
re-sync refs from state between calls, so one field per register is the
faithful pure model.  Its parseInstr differs from the one in cpu.js only
by recognizing MUL and DIV.
-/

/-- The switch in the jsx parseInstr: the cpu.js cases plus MUL and DIV. -/
def instrOfOp (op : String) (a : Int) (txt : String) : Instr :=
  match op with
  | "HLT" => .hlt
  | "NOP" => .nop
  | "OUT" => .out
  | "LOAD" => .load a
  | "ADD" => .add a
  | "SUB" => .sub a
  | "LOADI" => .loadi a
  | "ADDM" => .addm a
  | "SUBM" => .subm a
  | "STORE" => .store a
  | "JMP" => .jmp a
  | "JZ" => .jz a
  | "JNZ" => .jnz a
  | "MUL" => .mul a
  | "DIV" => .div a
  | _ => .invalid txt

/-- parseInstr from src/src/VonNeumannSimulator.jsx. -/
def parseInstr (raw : Cell) : Instr :=
  match raw with
  | .undefined => .nop
  | .num n => .data n
  | .str s =>
    let txt := jsTrim s
    if txt = "" then .nop
    else
      let parts := tokens txt
      let op := jsUpper (parts.headD "")
      let a : Int := ((parts[1]?).bind jsNumber).getD 0
      Sim.instrOfOp op a txt

/-- The component state doExecute reads and writes: memSize is the
constant useState(defaultMemSize); running is the auto-run flag HLT and
INVALID also clear. -/
structure SimState where
  memSize : Nat
  memory : List Cell
  pc : Int
  ir : Cell
  acc : Int
  phase : Phase
  running : Bool
  halted : Bool
  outputs : List Int
deriving DecidableEq, Repr

/-- writeMem in the jsx: the address is clamped into [0, memSize-1] before
the array write. -/
def writeMem (memSize : Nat) (m : List Cell) (addr : Int) (v : Cell) : List Cell :=
  let a := clampInt addr 0 ((memSize : Int) - 1)
  memWrite m a v

/-- next() in doExecute: PC ← clamp(pc + 1, 0, memSize - 1). -/
def advPC (s : SimState) : SimState :=
  { s with pc := clampInt (s.pc + 1) 0 ((s.memSize : Int) - 1) }

/-- doExecute from src/src/VonNeumannSimulator.jsx: sets phase Execute and
dispatches on the decoded IR.  MUL is immediate multiplication, DIV is
immediate division with Math.trunc and a divide-by-zero guard that sets
ACC to 0 and continues. -/
def doExecute (s0 : SimState) : SimState × String :=
  let s := { s0 with phase := Phase.Execute }
  match Sim.parseInstr s.ir with
  | .nop => (advPC s, "EXEC: NOP")
  | .hlt =>
    ({ s with halted := true, running := false }, "EXEC: HLT (CPU detenida)")
  | .load a =>
    (advPC { s with acc := a },
      "EXEC: LOAD #" ++ toString a ++ " → ACC=" ++ toString a)
  | .loadi a =>
    let v := parseData (memRead s.memory a)
    (advPC { s with acc := v },
      "EXEC: LOADI [" ++ toString a ++ "] → ACC=" ++ toString v)
  | .mul a =>
    let v := s.acc * a
    (advPC { s with acc := v },
      "EXEC: MUL #" ++ toString a ++ " → ACC=" ++ toString v)
  | .div a =>
    if a = 0 then
      (advPC { s with acc := 0 },
        "EXEC: DIV #" ++ toString a ++ " (÷0) → ACC=0")
    else
      let v := Int.tdiv s.acc a
      (advPC { s with acc := v },
        "EXEC: DIV #" ++ toString a ++ " → ACC=" ++ toString v)
  | .store a =>
    (advPC { s with memory := Sim.writeMem s.memSize s.memory a (Cell.num s.acc) },
      "EXEC: STORE ACC(" ++ toString s.acc ++ ") → [" ++ toString a ++ "]")
  | .add a =>
    let v := s.acc + a
    (advPC { s with acc := v },
      "EXEC: ADD #" ++ toString a ++ " → ACC=" ++ toString v)
  | .addm a =>
    let m := parseData (memRead s.memory a)
    let v := s.acc + m
    (advPC { s with acc := v },
      "EXEC: ADDM [" ++ toString a ++ "]=" ++ toString m ++ " → ACC=" ++ toString v)
  | .sub a =>
    let v := s.acc - a
    (advPC { s with acc := v },
      "EXEC: SUB #" ++ toString a ++ " → ACC=" ++ toString v)
  | .subm a =>
    let m := parseData (memRead s.memory a)
    let v := s.acc - m
    (advPC { s with acc := v },
      "EXEC: SUBM [" ++ toString a ++ "]=" ++ toString m ++ " → ACC=" ++ toString v)
  | .jmp a =>
    ({ s with pc := clampInt a 0 ((s.memSize : Int) - 1) },
      "EXEC: JMP → PC=" ++ toString a)
  | .jz a =>
    if s.acc = 0 then
      ({ s with pc := clampInt a 0 ((s.memSize : Int) - 1) },
        "EXEC: JZ (ACC=0) → PC=" ++ toString a)
    else (advPC s, "EXEC: JZ (no salta)")
  | .jnz a =>
    if s.acc ≠ 0 then
      ({ s with pc := clampInt a 0 ((s.memSize : Int) - 1) },
        "EXEC: JNZ (ACC!=0) → PC=" ++ toString a)
    else (advPC s, "EXEC: JNZ (no salta)")
  | .out =>
    let outs := (s.outputs ++ [s.acc]).drop ((s.outputs.length + 1) - 50)
    (advPC { s with outputs := outs }, "EXEC: OUT → " ++ toString s.acc)
  | .data _ => (advPC s, "EXEC: DATA (sin efecto)")
  | .invalid _ =>
    ({ s with halted := true, running := false }, "ERROR: instrucción inválida")

/-
The assembler: compileAndLoad in src/src/VonNeumannSimulator.jsx.
-/

/-- The variable table {X, Y, Z?}; the component binds X and Y from the
inputs and never binds Z, so Number(vars.Z) || 0 yields Z.getD 0 (JS
Number coercion of the bound value is folded into the Int fields). -/
structure Vars where
  X : Int
  Y : Int
  Z : Option Int
deriving DecidableEq, Repr

/-- Number(vars.Z) || 0 for the optional binding. -/
def numOr0 (v : Option Int) : Int := v.getD 0

/-- Step 1 of compileAndLoad: split on newlines, cut each line at //,
trim, drop blank lines. -/
def cleanLines (text : String) : List String :=
  (((splitP (fun c => c = '\n') text.data).map
      (fun l => jsTrim (String.mk (beforeComment l)))).filter
    (fun l => l ≠ ""))

/-- The mnemonics whose operand is resolved as an address. -/
def addrOps : List String := ["LOADI", "ADDM", "SUBM", "STORE", "JMP", "JZ", "JNZ"]

/-- resolveVarToValue: X/Y/Z give their bound value, otherwise
Number(name), defaulting to 0 when not finite. -/
def resolveVarToValue (vars : Vars) (name : String) : Int :=
  let key := jsUpper name
  if key = "X" then vars.X
  else if key = "Y" then vars.Y
  else if key = "Z" then numOr0 vars.Z
  else (jsNumber name).getD 0

/-- resolveVarToAddr: X/Y/Z give their reserved slot, a number is clamped
into [0, memSize-1], anything else gives 0. -/
def resolveVarToAddr (xAddr yAddr zAddr memSize : Nat) (name : String) : Int :=
  let key := jsUpper name
  if key = "X" then (xAddr : Int)
  else if key = "Y" then (yAddr : Int)
  else if key = "Z" then (zAddr : Int)
  else
    match jsNumber name with
    | some n => clampInt n 0 ((memSize : Int) - 1)
    | none => 0

/-- The loop body of step 3: one cleaned line becomes "OP", or
"OP resolved-arg" with the operand resolved as address or value according
to the mnemonic class. -/
def translateLine (xAddr yAddr zAddr memSize : Nat) (vars : Vars) (line : String) :
    Cell :=
  let parts := tokens line
  let op := jsUpper (parts.headD "")
  match parts[1]? with
  | none => Cell.str op
  | some rawArg =>
    let arg : Int :=
      if op ∈ addrOps then resolveVarToAddr xAddr yAddr zAddr memSize rawArg
      else resolveVarToValue vars rawArg
    Cell.str (op ++ " " ++ toString arg)

/-- compileAndLoad from src/src/VonNeumannSimulator.jsx: clean the text,
reserve the three slots after the program, reject when program + 3 slots
exceed the memory, otherwise translate each line into a fresh
empty-string-filled memory and write the X, Y, Z bindings into their
slots.  The error branch of the source sets only a message and returns,
touching no memory. -/
def compileAndLoad (programText : String) (vars : Vars) (memSize : Nat) :
    Except String (List Cell) :=
  let lines := cleanLines programText
  let xAddr := lines.length
  let yAddr := lines.length + 1
  let zAddr := lines.length + 2
  if lines.length + 3 > memSize then
    Except.error "El programa y datos no caben en la memoria actual."
  else
    let base := List.replicate memSize (Cell.str "")
    let prog := lines.map (translateLine xAddr yAddr zAddr memSize vars)
    let mem0 := prog ++ base.drop lines.length
    let mem1 := memWrite mem0 (xAddr : Int) (Cell.num vars.X)
    let mem2 := memWrite mem1 (yAddr : Int) (Cell.num vars.Y)
    let mem3 := memWrite mem2 (zAddr : Int) (Cell.num (numOr0 vars.Z))
    Except.ok mem3

/-- The component memory after pressing compile: replaced on success, kept
as it was when the capacity check fails. -/
def memoryAfterCompile (prev : List Cell) (text : String) (vars : Vars)
    (memSize : Nat) : List Cell :=
  match compileAndLoad text vars memSize with
  | .error _ => prev
  | .ok m => m

end Sim

/-
Statement helpers and concrete fixtures.
-/

/-- The memory image of a successful compile (the driver installs it);
dummy empty image when the compile failed. -/
def okCells (r : Except String (List Cell)) : List Cell :=
  match r with
  | .ok m => m
  | .error _ => []

/-- The five-line source program of the round-trip claim. -/
def c1Text : String := "LOAD X\nADD Y\nSTORE Z\nOUT\nHLT"

/-- The variable bindings X=2, Y=2 (Z unbound, as in the component). -/
def c1Vars : Sim.Vars := { X := 2, Y := 2, Z := none }

/-- The state after loading the round-trip program into 16 cells,
resetting, and stepping until the CPU halts (20 units of fuel; the run
needs 15 phase steps). -/
def c1Final : State :=
  run 20 (resetState (okCells (Sim.compileAndLoad c1Text c1Vars 16)))

/-- C1: assembling "LOAD X / ADD Y / STORE Z / OUT / HLT" with X=2 and Y=2
into a 16-cell memory and repeatedly applying step from the freshly reset
state until halted ends with ACC=4 and outputs=[4]. -/
theorem c1_round_trip :
    (Sim.compileAndLoad c1Text c1Vars 16).isOk = true ∧
    c1Final.halted = true ∧ c1Final.acc = 4 ∧ c1Final.outputs = [4] := by
  refine ⟨rfl, rfl, rfl, rfl⟩

/-- C2: once halted is true, step returns the very same state (every field
identical) together with its description, and any number of further step
calls leaves the state unchanged. -/
theorem c2_halt_idempotent (s : State) (h : s.halted = true) :
    step s = (s, "CPU detenida") ∧ ∀ n : Nat, stepState^[n] s = s := by
  have h1 : step s = (s, "CPU detenida") := by simp [step, h]
  refine ⟨h1, fun n => ?_⟩
  induction n with
  | zero => rfl
  | succ k ih =>
    rw [Function.iterate_succ_apply]
    have h2 : stepState s = s := by simp [stepState, h1]
    rw [h2, ih]

/-- A halted state used to witness the post-halt no-op claim. -/
def c2State : State :=
  { memory := [Cell.str "HLT"], pc := 0, ir := Cell.str "HLT", acc := 3,
    phase := .Execute, halted := true, outputs := [3] }

/-- Witness for C2 at a concrete halted state. -/
theorem c2_halt_idempotent_witness :
    step c2State = (c2State, "CPU detenida") ∧ stepState^[5] c2State = c2State :=
  ⟨(c2_halt_idempotent c2State rfl).1, (c2_halt_idempotent c2State rfl).2 5⟩

/-- A Decode-phase state about to execute a bare JMP. -/
def c10JmpState : State :=
  { memory := List.replicate 16 (Cell.str ""), pc := 5, ir := Cell.str "JMP",
    acc := 0, phase := .Decode, halted := false, outputs := [] }

/-- C10: every operand-taking mnemonic written bare decodes to its opcode
with operand 0 (never INVALID), and the cell "JMP" executes as a jump to
address 0. -/
theorem c10_bare_mnemonic_operand_zero :
    parseInstr (Cell.str "LOAD") = Instr.load 0 ∧
    parseInstr (Cell.str "ADD") = Instr.add 0 ∧
    parseInstr (Cell.str "SUB") = Instr.sub 0 ∧
    parseInstr (Cell.str "LOADI") = Instr.loadi 0 ∧
    parseInstr (Cell.str "ADDM") = Instr.addm 0 ∧
    parseInstr (Cell.str "SUBM") = Instr.subm 0 ∧
    parseInstr (Cell.str "STORE") = Instr.store 0 ∧
    parseInstr (Cell.str "JMP") = Instr.jmp 0 ∧
    parseInstr (Cell.str "JZ") = Instr.jz 0 ∧
    parseInstr (Cell.str "JNZ") = Instr.jnz 0 ∧
    (stepState c10JmpState).pc = 0 ∧ (stepState c10JmpState).halted = false := by
  decide

/-- A Decode-phase state about to execute STORE 20 against 16 cells. -/
def c3State : State :=
  { memory := List.replicate 16 (Cell.str ""), pc := 0, ir := Cell.str "STORE 20",
    acc := 7, phase := .Decode, halted := false, outputs := [] }

/-- C3 counterexample: executing STORE 20 on a 16-cell memory does not
write cell clamp(20, 0, 15) = 15 — that cell keeps its old value — and the
memory does not keep its fixed length: it grows to 21 cells, with the
stored value at index 20. -/
theorem c3_counterexample :
    (stepState c3State).memory.length = 21 ∧
    memRead (stepState c3State).memory 15 = Cell.str "" ∧
    memRead (stepState c3State).memory 20 = Cell.num 7 ∧
    (stepState c3State).memory.length ≠ c3State.memory.length := by
  decide

/-- An Idle-phase state whose current cell is the empty string. -/
def c9State : State :=
  { memory := List.replicate 16 (Cell.str ""), pc := 0, ir := Cell.num 5,
    acc := 0, phase := .Idle, halted := false, outputs := [] }

/-- C9 counterexample: fetching an empty-string cell loads the empty
string into IR, not the string "NOP" the claim requires for an empty
cell (only the undefined cell is replaced by "NOP"). -/
theorem c9_counterexample :
    memRead c9State.memory c9State.pc = Cell.str "" ∧
    (stepState c9State).ir = Cell.str "" ∧
    (stepState c9State).ir ≠ Cell.str "NOP" := by
  decide

/-- C9 amended: in the Fetch transition IR becomes memory[PC], with the
string "NOP" substituted only for the undefined cell (an empty-string cell
is loaded as-is); phase becomes Fetch and ACC, PC, memory, halted and
outputs are unchanged. -/
theorem c9_amended_fetch_frame (s : State) (hh : s.halted = false)
    (hp : s.phase = Phase.Idle ∨ s.phase = Phase.Execute) :
    (stepState s).ir = (if memRead s.memory s.pc = Cell.undefined then Cell.str "NOP"
      else memRead s.memory s.pc) ∧
    (stepState s).phase = Phase.Fetch ∧
    (stepState s).acc = s.acc ∧
    (stepState s).pc = s.pc ∧
    (stepState s).memory = s.memory ∧
    (stepState s).halted = s.halted ∧
    (stepState s).outputs = s.outputs := by
  rcases hp with h | h <;> simp [stepState, step, hh, h]

/-- A fresh two-instruction state used to witness the Fetch frame claim. -/
def c9WState : State :=
  { memory := [Cell.str "LOAD 3", Cell.str "HLT"], pc := 0, ir := Cell.str "NOP",
    acc := 0, phase := Phase.Idle, halted := false, outputs := [] }

/-- Witness for the amended C9 at a concrete Idle state. -/
theorem c9_amended_fetch_frame_witness :
    (stepState c9WState).ir = (if memRead c9WState.memory c9WState.pc = Cell.undefined
      then Cell.str "NOP" else memRead c9WState.memory c9WState.pc) ∧
    (stepState c9WState).phase = Phase.Fetch ∧
    (stepState c9WState).acc = c9WState.acc ∧
    (stepState c9WState).pc = c9WState.pc ∧
    (stepState c9WState).memory = c9WState.memory ∧
    (stepState c9WState).halted = c9WState.halted ∧
    (stepState c9WState).outputs = c9WState.outputs :=
  c9_amended_fetch_frame c9WState rfl (Or.inl rfl)

/-- C3 amended: in the Execute transition only the JMP/JZ/JNZ program
counter targets are clamped into [0, size-1]; STORE writes the unclamped
address (extending the memory when it is past the end), and LOADI/ADDM/SUBM
read the unclamped address, an out-of-range read contributing 0. -/
theorem c3_amended_clamp_only_jumps (s : State) (hh : s.halted = false)
    (hp : s.phase = Phase.Decode) :
    (∀ a, parseInstr s.ir = Instr.jmp a →
        (stepState s).pc = clampInt a 0 ((s.memory.length : Int) - 1)) ∧
    (∀ a, parseInstr s.ir = Instr.jz a → s.acc = 0 →
        (stepState s).pc = clampInt a 0 ((s.memory.length : Int) - 1)) ∧
    (∀ a, parseInstr s.ir = Instr.jnz a → s.acc ≠ 0 →
        (stepState s).pc = clampInt a 0 ((s.memory.length : Int) - 1)) ∧
    (∀ a, parseInstr s.ir = Instr.store a →
        (stepState s).memory = memWrite s.memory a (Cell.num s.acc)) ∧
    (∀ a, parseInstr s.ir = Instr.loadi a → ¬ (0 ≤ a ∧ a < (s.memory.length : Int)) →
        (stepState s).acc = 0) ∧
    (∀ a, parseInstr s.ir = Instr.addm a → ¬ (0 ≤ a ∧ a < (s.memory.length : Int)) →
        (stepState s).acc = s.acc) ∧
    (∀ a, parseInstr s.ir = Instr.subm a → ¬ (0 ≤ a ∧ a < (s.memory.length : Int)) →
        (stepState s).acc = s.acc) := by
  refine ⟨?_, ?_, ?_, ?_, ?_, ?_, ?_⟩
  · intro a ha; simp [stepState, step, hh, hp, ha, clampInt]
  · intro a ha hacc; simp [stepState, step, hh, hp, ha, hacc, clampInt]
  · intro a ha hacc; simp [stepState, step, hh, hp, ha, hacc, clampInt]
  · intro a ha; simp [stepState, step, hh, hp, ha]
  · intro a ha hr; simp [stepState, step, hh, hp, ha, memRead, hr, parseData]
  · intro a ha hr; simp [stepState, step, hh, hp, ha, memRead, hr, parseData]
  · intro a ha hr; simp [stepState, step, hh, hp, ha, memRead, hr, parseData]

/-- A Decode-phase state about to execute JMP 99 against 16 cells. -/
def c3WState : State :=
  { memory := List.replicate 16 (Cell.str ""), pc := 0, ir := Cell.str "JMP 99",
    acc := 0, phase := Phase.Decode, halted := false, outputs := [] }

/-- Witness for the amended C3: the out-of-range jump target 99 is clamped. -/
theorem c3_amended_clamp_only_jumps_witness :
    (stepState c3WState).pc = clampInt 99 0 ((c3WState.memory.length : Int) - 1) :=
  (c3_amended_clamp_only_jumps c3WState rfl rfl).1 99 (by decide)

/-- C8: in the jsx executor, MUL v multiplies the accumulator and advances
the clamped PC; DIV v with v ≠ 0 divides truncating toward zero and
advances; DIV 0 sets ACC to 0 without halting and still advances. -/
theorem c8_mul_div_semantics (s : Sim.SimState) :
    (∀ v, Sim.parseInstr s.ir = Instr.mul v →
        (Sim.doExecute s).1.acc = s.acc * v ∧
        (Sim.doExecute s).1.pc = clampInt (s.pc + 1) 0 ((s.memSize : Int) - 1) ∧
        (Sim.doExecute s).1.halted = s.halted) ∧
    (∀ v, Sim.parseInstr s.ir = Instr.div v → v ≠ 0 →
        (Sim.doExecute s).1.acc = Int.tdiv s.acc v ∧
        (Sim.doExecute s).1.pc = clampInt (s.pc + 1) 0 ((s.memSize : Int) - 1) ∧
        (Sim.doExecute s).1.halted = s.halted) ∧
    (Sim.parseInstr s.ir = Instr.div 0 →
        (Sim.doExecute s).1.acc = 0 ∧
        (Sim.doExecute s).1.halted = s.halted ∧
        (Sim.doExecute s).1.pc = clampInt (s.pc + 1) 0 ((s.memSize : Int) - 1)) := by
  refine ⟨?_, ?_, ?_⟩
  · intro v hv; simp [Sim.doExecute, hv, Sim.advPC]
  · intro v hv hv0; simp [Sim.doExecute, hv, hv0, Sim.advPC]
  · intro hv; simp [Sim.doExecute, hv, Sim.advPC]

/-- A Decode-phase jsx state about to execute MUL 4 with ACC=3. -/
def c8MulState : Sim.SimState :=
  { memSize := 16, memory := List.replicate 16 (Cell.str ""), pc := 2,
    ir := Cell.str "MUL 4", acc := 3, phase := Phase.Decode, running := true,
    halted := false, outputs := [] }

/-- A Decode-phase jsx state about to execute DIV -2 with ACC=9. -/
def c8DivState : Sim.SimState :=
  { memSize := 16, memory := List.replicate 16 (Cell.str ""), pc := 2,
    ir := Cell.str "DIV -2", acc := 9, phase := Phase.Decode, running := true,
    halted := false, outputs := [] }

/-- A Decode-phase jsx state about to execute DIV 0 with ACC=9. -/
def c8Div0State : Sim.SimState :=
  { memSize := 16, memory := List.replicate 16 (Cell.str ""), pc := 2,
    ir := Cell.str "DIV 0", acc := 9, phase := Phase.Decode, running := true,
    halted := false, outputs := [] }

/-- Witness for C8 at concrete MUL, DIV and DIV 0 executions. -/
theorem c8_mul_div_semantics_witness :
    ((Sim.doExecute c8MulState).1.acc = c8MulState.acc * 4 ∧
      (Sim.doExecute c8MulState).1.pc
        = clampInt (c8MulState.pc + 1) 0 ((c8MulState.memSize : Int) - 1) ∧
      (Sim.doExecute c8MulState).1.halted = c8MulState.halted) ∧
    ((Sim.doExecute c8DivState).1.acc = Int.tdiv c8DivState.acc (-2) ∧
      (Sim.doExecute c8DivState).1.pc
        = clampInt (c8DivState.pc + 1) 0 ((c8DivState.memSize : Int) - 1) ∧
      (Sim.doExecute c8DivState).1.halted = c8DivState.halted) ∧
    ((Sim.doExecute c8Div0State).1.acc = 0 ∧
      (Sim.doExecute c8Div0State).1.halted = c8Div0State.halted ∧
      (Sim.doExecute c8Div0State).1.pc
        = clampInt (c8Div0State.pc + 1) 0 ((c8Div0State.memSize : Int) - 1)) :=
  ⟨(c8_mul_div_semantics c8MulState).1 4 (by decide),
    (c8_mul_div_semantics c8DivState).2.1 (-2) (by decide) (by decide),
    (c8_mul_div_semantics c8Div0State).2.2 (by decide)⟩

/-- C6: when the cleaned program plus the three variable slots exceeds the
memory, compileAndLoad reports the capacity error and the prior memory is
left completely unchanged. -/
theorem c6_capacity_error (text : String) (vars : Sim.Vars) (memSize : Nat)
    (prev : List Cell) (h : (Sim.cleanLines text).length + 3 > memSize) :
    Sim.compileAndLoad text vars memSize
      = Except.error "El programa y datos no caben en la memoria actual." ∧
    Sim.memoryAfterCompile prev text vars memSize = prev := by
  have hc : Sim.compileAndLoad text vars memSize
      = Except.error "El programa y datos no caben en la memoria actual." := by
    unfold Sim.compileAndLoad
    rw [if_pos h]
  exact ⟨hc, by unfold Sim.memoryAfterCompile; rw [hc]⟩

/-- Witness for C6: a two-line program rejected by a four-cell memory. -/
theorem c6_capacity_error_witness :
    Sim.compileAndLoad "LOAD 1\nHLT" { X := 1, Y := 2, Z := none } 4
      = Except.error "El programa y datos no caben en la memoria actual." ∧
    Sim.memoryAfterCompile [Cell.num 9] "LOAD 1\nHLT" { X := 1, Y := 2, Z := none } 4
      = [Cell.num 9] :=
  c6_capacity_error "LOAD 1\nHLT" { X := 1, Y := 2, Z := none } 4 [Cell.num 9]
    (by decide)

/-- One step never pushes the output list past 50 entries: only OUT
changes it, through the append-then-slice(-50). -/
theorem stepState_outputs_le (s : State) (h : s.outputs.length ≤ 50) :
    (stepState s).outputs.length ≤ 50 := by
  by_cases hb : s.halted
  · simpa [stepState, step, hb] using h
  · simp only [Bool.not_eq_true] at hb
    cases hph : s.phase with
    | Idle => simpa [stepState, step, hb, hph] using h
    | Fetch => simpa [stepState, step, hb, hph] using h
    | Execute => simpa [stepState, step, hb, hph] using h
    | Decode =>
      cases hi : parseInstr s.ir with
      | out =>
        simp [stepState, step, hb, hph, hi, List.length_drop]
        omega
      | jz a =>
        by_cases hacc : s.acc = 0 <;>
          simpa [stepState, step, hb, hph, hi, hacc] using h
      | jnz a =>
        by_cases hacc : s.acc = 0 <;>
          simpa [stepState, step, hb, hph, hi, hacc] using h
      | _ => simpa [stepState, step, hb, hph, hi] using h

/-- The Decode-phase OUT fixture feeding value v to the output list. -/
def outState (outs : List Int) (v : Int) : State :=
  { memory := List.replicate 16 (Cell.str ""), pc := 0, ir := Cell.str "OUT",
    acc := v, phase := Phase.Decode, halted := false, outputs := outs }

/-- The output list left by 51 OUT executions emitting 0, 1, ..., 50. -/
def outs51 : List Int :=
  (List.range 51).foldl (fun outs v => (stepState (outState outs (v : Int))).outputs) []

set_option maxRecDepth 20000 in
/-- C5: the output list never exceeds 50 entries under any number of
steps; executing OUT appends ACC and drops the oldest entry exactly when
the list already holds 50; after 51 OUT executions the first emitted value
is gone and the 50 remaining values are in emission order. -/
theorem c5_outputs_bounded :
    (∀ (s : State) (n : Nat), s.outputs.length ≤ 50 →
        (stepState^[n] s).outputs.length ≤ 50) ∧
    (∀ s : State, s.halted = false → s.phase = Phase.Decode →
        parseInstr s.ir = Instr.out → s.outputs.length ≤ 50 →
        (stepState s).outputs
          = (if s.outputs.length = 50 then s.outputs.drop 1 else s.outputs) ++ [s.acc]) ∧
    outs51.length = 50 ∧ (0 : Int) ∉ outs51 ∧
    outs51 = (List.range' 1 50).map (fun i => (i : Int)) := by
  refine ⟨?_, ?_, ?_, ?_, ?_⟩
  · intro s n
    induction n generalizing s with
    | zero => exact fun h => h
    | succ k ih =>
      intro h
      rw [Function.iterate_succ_apply]
      exact ih (stepState s) (stepState_outputs_le s h)
  · intro s hh hp hi hlen
    by_cases h50 : s.outputs.length = 50
    · have h1 : (1 : Nat) ≤ s.outputs.length := by omega
      simp [stepState, step, hh, hp, hi, h50,
        List.drop_append_of_le_length h1]
    · have h0 : s.outputs.length + 1 - 50 = 0 := by omega
      simp [stepState, step, hh, hp, hi, h50, h0]
  · decide
  · decide
  · decide

/-- Witness for C5 at concrete inputs: three steps keep a full output
list at 50 entries, and one OUT on a 50-entry list drops the oldest. -/
theorem c5_outputs_bounded_witness :
    (stepState^[3] (outState (List.map (fun i => (i : Int)) (List.range 50)) 7)).outputs.length ≤ 50 ∧
    (stepState (outState (List.map (fun i => (i : Int)) (List.range 50)) 7)).outputs
      = (if (outState (List.map (fun i => (i : Int)) (List.range 50)) 7).outputs.length = 50
          then (outState (List.map (fun i => (i : Int)) (List.range 50)) 7).outputs.drop 1
          else (outState (List.map (fun i => (i : Int)) (List.range 50)) 7).outputs)
        ++ [(outState (List.map (fun i => (i : Int)) (List.range 50)) 7).acc] :=
  ⟨c5_outputs_bounded.1 (outState (List.map (fun i => (i : Int)) (List.range 50)) 7) 3
      (by decide),
    c5_outputs_bounded.2.1 (outState (List.map (fun i => (i : Int)) (List.range 50)) 7)
      rfl rfl (by decide) (by decide)⟩

/-- instr ?? "NOP" in the Fetch transition: the value loaded into IR. -/
def fetchIR (c : Cell) : Cell :=
  if c = Cell.undefined then Cell.str "NOP" else c

/-- The opcodes C4 excludes: branches, HLT and INVALID. -/
def branchy : Instr → Bool
  | .jmp _ | .jz _ | .jnz _ | .hlt | .invalid _ => true
  | _ => false

/-- MUL/DIV detector (those constructors exist only for the jsx decoder). -/
def isMulDiv : Instr → Bool
  | .mul _ | .div _ => true
  | _ => false

/-- The cpu.js mnemonic switch never yields MUL or DIV. -/
theorem instrOfOp_not_muldiv (op : String) (a : Int) (txt : String) :
    isMulDiv (instrOfOp op a txt) = false := by
  unfold instrOfOp
  split <;> rfl

/-- The cpu.js decoder never yields MUL or DIV (they fall to INVALID). -/
theorem parseInstr_not_muldiv (c : Cell) : isMulDiv (parseInstr c) = false := by
  cases c with
  | undefined => rfl
  | num n => rfl
  | str s =>
    simp only [parseInstr]
    split
    · rfl
    · exact instrOfOp_not_muldiv _ _ _

/-- C4: from a non-halted Idle or Execute state whose current cell decodes
to an opcode that is not a branch, HLT or INVALID, three steps (Fetch,
Decode, Execute) leave the program counter at clamp(PC+1, 0, size-1). -/
theorem c4_linear_pc_advance (s : State) (hh : s.halted = false)
    (hp : s.phase = Phase.Idle ∨ s.phase = Phase.Execute)
    (hop : branchy (parseInstr (memRead s.memory s.pc)) = false) :
    (stepState (stepState (stepState s))).pc
      = clampInt (s.pc + 1) 0 ((s.memory.length : Int) - 1) := by
  have h1 : stepState s
      = { s with phase := Phase.Fetch, ir := fetchIR (memRead s.memory s.pc) } := by
    rcases hp with h | h <;> simp [stepState, step, hh, h, fetchIR]
  have h2 : stepState (stepState s)
      = { s with phase := Phase.Decode, ir := fetchIR (memRead s.memory s.pc) } := by
    rw [h1]; simp [stepState, step, hh]
  have hpi : parseInstr (fetchIR (memRead s.memory s.pc))
      = parseInstr (memRead s.memory s.pc) := by
    unfold fetchIR
    split
    · rename_i h; rw [h]; rfl
    · rfl
  rw [h2]
  have hmd := parseInstr_not_muldiv (memRead s.memory s.pc)
  cases hi : parseInstr (memRead s.memory s.pc) with
  | jmp a => rw [hi] at hop; simp [branchy] at hop
  | jz a => rw [hi] at hop; simp [branchy] at hop
  | jnz a => rw [hi] at hop; simp [branchy] at hop
  | hlt => rw [hi] at hop; simp [branchy] at hop
  | invalid t => rw [hi] at hop; simp [branchy] at hop
  | mul a => rw [hi] at hmd; simp [isMulDiv] at hmd
  | div a => rw [hi] at hmd; simp [isMulDiv] at hmd
  | _ => simp [stepState, step, hh, hpi, hi, nextPCOf, clampInt]

/-- An Idle state whose current cell holds the linear instruction ADD 2. -/
def c4WState : State :=
  { memory := [Cell.str "ADD 2", Cell.str "HLT"], pc := 0, ir := Cell.str "NOP",
    acc := 5, phase := Phase.Idle, halted := false, outputs := [] }

/-- Witness for C4: three steps over ADD 2 advance the PC to clamp(0+1). -/
theorem c4_linear_pc_advance_witness :
    (stepState (stepState (stepState c4WState))).pc
      = clampInt (c4WState.pc + 1) 0 ((c4WState.memory.length : Int) - 1) :=
  c4_linear_pc_advance c4WState rfl (Or.inl rfl) (by decide)

/-- The operand resolution exactly as the specification words it, for the
token shapes it covers: with n program lines, an X/Y/Z token after an
address-class mnemonic names the reserved slot n, n+1 or n+2; after any
other mnemonic X/Y/Z name their bound values and a numeric literal names
itself; a missing token leaves the bare mnemonic.  Token shapes the
specification leaves open resolve to none. -/
def claimedCell (n : Nat) (vars : Sim.Vars) (line : String) : Option Cell :=
  let parts := tokens line
  let op := jsUpper (parts.headD "")
  match parts[1]? with
  | none => some (Cell.str op)
  | some t =>
    let key := jsUpper t
    if op ∈ Sim.addrOps then
      if key = "X" then some (Cell.str (op ++ " " ++ toString (n : Int)))
      else if key = "Y" then some (Cell.str (op ++ " " ++ toString ((n + 1 : Nat) : Int)))
      else if key = "Z" then some (Cell.str (op ++ " " ++ toString ((n + 2 : Nat) : Int)))
      else none
    else
      if key = "X" then some (Cell.str (op ++ " " ++ toString vars.X))
      else if key = "Y" then some (Cell.str (op ++ " " ++ toString vars.Y))
      else if key = "Z" then some (Cell.str (op ++ " " ++ toString (Sim.numOr0 vars.Z)))
      else
        match jsNumber t with
        | some k => some (Cell.str (op ++ " " ++ toString k))
        | none => none

/-- On every token shape the specification covers, the assembler loop body
produces exactly the specified cell. -/
theorem translateLine_claimed (n memSize : Nat) (vars : Sim.Vars) (line : String)
    (c : Cell) (h : claimedCell n vars line = some c) :
    Sim.translateLine n (n + 1) (n + 2) memSize vars line = c := by
  unfold claimedCell at h
  unfold Sim.translateLine
  cases hp : (tokens line)[1]? with
  | none =>
    simp only [hp] at h ⊢
    simpa using h
  | some t =>
    simp only [hp] at h ⊢
    split at h <;> rename_i haddr
    · rw [if_pos haddr]
      split at h <;> rename_i h1
      · injection h with h
        subst h
        simp [Sim.resolveVarToAddr, h1]
      · split at h <;> rename_i h2
        · injection h with h
          subst h
          simp [Sim.resolveVarToAddr, h1, h2]
        · split at h <;> rename_i h3
          · injection h with h
            subst h
            simp [Sim.resolveVarToAddr, h1, h2, h3]
          · exact absurd h (by simp)
    · rw [if_neg haddr]
      split at h <;> rename_i h1
      · injection h with h
        subst h
        simp [Sim.resolveVarToValue, h1]
      · split at h <;> rename_i h2
        · injection h with h
          subst h
          simp [Sim.resolveVarToValue, h1, h2]
        · split at h <;> rename_i h3
          · injection h with h
            subst h
            simp [Sim.resolveVarToValue, h1, h2, h3]
          · split at h <;> rename_i k hk
            · injection h with h
              subst h
              simp [Sim.resolveVarToValue, h1, h2, h3, hk]
            · exact absurd h (by simp)

/-- A JS array write at a natural index inside the length is a plain list
set. -/
theorem memWrite_set (m : List Cell) (i : Nat) (v : Cell) (h : i < m.length) :
    memWrite m (i : Int) v = m.set i v := by
  unfold memWrite
  rw [if_neg (not_lt.mpr (Int.natCast_nonneg i))]
  simp [Int.toNat_ofNat, h]

/-- A JS array read at a natural index inside the length is the list
element. -/
theorem memRead_getElem (m : List Cell) (i : Nat) (h : i < m.length) :
    memRead m (i : Int) = m[i] := by
  unfold memRead
  rw [if_pos ⟨Int.natCast_nonneg i, by exact_mod_cast h⟩]
  simp [Int.toNat_ofNat, List.getElem?_eq_getElem h]

/-- The three variable-slot writes of the assembler are plain list sets. -/
theorem memWrite3_set (m : List Cell) (n : Nat) (x y z : Cell)
    (h : n + 3 ≤ m.length) :
    memWrite (memWrite (memWrite m (n : Int) x) ((n + 1 : Nat) : Int) y)
        ((n + 2 : Nat) : Int) z
      = ((m.set n x).set (n + 1) y).set (n + 2) z := by
  rw [memWrite_set m n x (by omega)]
  rw [memWrite_set _ (n + 1) y (by simp only [List.length_set]; omega)]
  rw [memWrite_set _ (n + 2) z (by simp only [List.length_set]; omega)]

/-- The successful memory image, in list-set form: the translated program,
the empty-string padding, and the three variable slots. -/
def assembledImage (text : String) (vars : Sim.Vars) (memSize : Nat) : List Cell :=
  let L := Sim.cleanLines text
  let n := L.length
  ((((L.map (Sim.translateLine n (n + 1) (n + 2) memSize vars))
      ++ (List.replicate memSize (Cell.str "")).drop n).set n (Cell.num vars.X)).set
      (n + 1) (Cell.num vars.Y)).set (n + 2) (Cell.num (Sim.numOr0 vars.Z))

/-- When the program fits, compileAndLoad returns the assembled image. -/
theorem compileAndLoad_eq_ok (text : String) (vars : Sim.Vars) (memSize : Nat)
    (hcap : (Sim.cleanLines text).length + 3 ≤ memSize) :
    Sim.compileAndLoad text vars memSize
      = Except.ok (assembledImage text vars memSize) := by
  unfold Sim.compileAndLoad assembledImage
  rw [if_neg (by omega)]
  refine congrArg Except.ok ?_
  refine memWrite3_set _ _ _ _ _ ?_
  simp only [List.length_append, List.length_map, List.length_drop,
    List.length_replicate]
  omega

/-- The assembled image fills the whole memory. -/
theorem assembledImage_length (text : String) (vars : Sim.Vars) (memSize : Nat)
    (hcap : (Sim.cleanLines text).length + 3 ≤ memSize) :
    (assembledImage text vars memSize).length = memSize := by
  unfold assembledImage
  simp only [List.length_set, List.length_append, List.length_map, List.length_drop,
    List.length_replicate]
  omega

/-- C7: for a program that fits, the assembler resolves address-class
X/Y/Z operands to the reserved slots n, n+1, n+2, immediate-class X/Y/Z
to their bound values and numeric tokens to themselves, writes
"OP resolved-arg" (or the bare "OP") into each program cell, and writes
the X, Y, Z bindings into cells n, n+1, n+2. -/
theorem c7_assembler_resolution (text : String) (vars : Sim.Vars) (memSize : Nat)
    (hcap : (Sim.cleanLines text).length + 3 ≤ memSize) :
    Sim.compileAndLoad text vars memSize
      = Except.ok (assembledImage text vars memSize) ∧
    (assembledImage text vars memSize).length = memSize ∧
    (∀ (i : Nat) (hi : i < (Sim.cleanLines text).length) (c : Cell),
        claimedCell (Sim.cleanLines text).length vars (Sim.cleanLines text)[i] = some c →
        memRead (assembledImage text vars memSize) (i : Int) = c) ∧
    memRead (assembledImage text vars memSize) (((Sim.cleanLines text).length : Nat) : Int)
      = Cell.num vars.X ∧
    memRead (assembledImage text vars memSize)
        (((Sim.cleanLines text).length + 1 : Nat) : Int) = Cell.num vars.Y ∧
    memRead (assembledImage text vars memSize)
        (((Sim.cleanLines text).length + 2 : Nat) : Int)
      = Cell.num (Sim.numOr0 vars.Z) := by
  have hok := compileAndLoad_eq_ok text vars memSize hcap
  have hlen := assembledImage_length text vars memSize hcap
  refine ⟨hok, hlen, ?_, ?_, ?_, ?_⟩
  · intro i hi c hc
    have hi2 : i < (assembledImage text vars memSize).length := by omega
    rw [memRead_getElem _ i hi2]
    simp only [assembledImage]
    rw [List.getElem_set_ne (by omega), List.getElem_set_ne (by omega),
      List.getElem_set_ne (by omega),
      List.getElem_append_left (by simpa using hi), List.getElem_map]
    exact translateLine_claimed _ memSize vars _ c hc
  · have hn2 : (Sim.cleanLines text).length < (assembledImage text vars memSize).length := by
      omega
    rw [memRead_getElem _ _ hn2]
    simp only [assembledImage]
    rw [List.getElem_set_ne (by omega), List.getElem_set_ne (by omega),
      List.getElem_set_self]
  · have hn2 : (Sim.cleanLines text).length + 1 < (assembledImage text vars memSize).length := by
      omega
    rw [memRead_getElem _ _ hn2]
    simp only [assembledImage]
    rw [List.getElem_set_ne (by omega), List.getElem_set_self]
  · have hn2 : (Sim.cleanLines text).length + 2 < (assembledImage text vars memSize).length := by
      omega
    rw [memRead_getElem _ _ hn2]
    simp only [assembledImage]
    rw [List.getElem_set_self]

/-- A four-line program exercising the three resolution modes. -/
def c7Text : String := "LOAD X\nADD 5\nSTORE Z\nHLT"

/-- Bindings X=3, Y=4 for the resolution witness. -/
def c7Vars : Sim.Vars := { X := 3, Y := 4, Z := none }

/-- Witness for C7: the concrete program compiles to its image, cell 0
receives "LOAD 3" (immediate X), and cell 4 receives the binding of X. -/
theorem c7_assembler_resolution_witness :
    Sim.compileAndLoad c7Text c7Vars 16 = Except.ok (assembledImage c7Text c7Vars 16) ∧
    memRead (assembledImage c7Text c7Vars 16) ((0 : Nat) : Int) = Cell.str "LOAD 3" ∧
    memRead (assembledImage c7Text c7Vars 16)
        (((Sim.cleanLines c7Text).length : Nat) : Int) = Cell.num c7Vars.X :=
  ⟨(c7_assembler_resolution c7Text c7Vars 16 (by decide)).1,
    (c7_assembler_resolution c7Text c7Vars 16 (by decide)).2.2.1 0 (by decide)
      (Cell.str "LOAD 3") (by decide),
    (c7_assembler_resolution c7Text c7Vars 16 (by decide)).2.2.2.1⟩
